import Mathlib

/-!
Verification of the natural-language specification of the ttl-reaper
repository against a shallow embedding of its Go sources.

The repository contains two sibling engines:
  * `pkg/controller/ttlreaper_controller.go` (controller-runtime based),
    embedded below in the namespace `controller`;
  * the knative reconciler (`pkg/reconciler/ttlreaper`, the unnamed source
    parts), embedded below in the namespace `ttlreaper`.

Shared infrastructure first: a model of the dynamic (unstructured, JSON
like) values Kubernetes hands to both engines, the nested-field accessors
of `k8s.io/apimachinery .../unstructured`, and a model of
`time.Parse(time.RFC3339, _)` restricted to the `YYYY-MM-DDTHH:MM:SSZ`
layout (no numeric timezone offsets, no fractional seconds; no claim
exercises those).  Instants are modelled as integer seconds since
0001-01-01T00:00:00Z, so that the value `0` coincides with Go's zero
`time.Time` and `t.IsZero()` becomes `t = 0`.
-/

/-- A dynamic value as decoded into `map[string]interface{}` by the
Kubernetes unstructured machinery: strings, integers (`int64`),
floating-point numbers, booleans, null, arrays and objects.  A float is
carried as the exact rational `num / den` it denotes (every finite IEEE
double is such a rational). -/
inductive JValue where
  | str (s : String)
  | int (i : Int)
  | float (num : Int) (den : Nat)
  | bool (b : Bool)
  | null
  | arr (items : List JValue)
  | obj (fields : List (String × JValue))

/-- Lookup in a Go map modelled as an association list (keys unique). -/
def lookupField : List (String × JValue) → String → Option JValue
  | [], _ => none
  | (k, v) :: rest, key => if k = key then some v else lookupField rest key

/-- `unstructured.NestedFieldNoCopy`: walk a path of keys through nested
objects.  `none` covers both "not found" and "intermediate value is not a
map" (the error case); every caller in the sources checks
`found && err == nil`, which collapses to `isSome` here. -/
def nestedFieldNoCopy : JValue → List String → Option JValue
  | v, [] => some v
  | .obj fields, key :: rest =>
    match lookupField fields key with
    | some w => nestedFieldNoCopy w rest
    | none => none
  | _, _ :: _ => none

/-- `unstructured.NestedString`: the nested field, provided it is a string. -/
def nestedString (v : JValue) (path : List String) : Option String :=
  match nestedFieldNoCopy v path with
  | some (.str s) => some s
  | _ => none

/-- `unstructured.NestedSlice`: the nested field, provided it is a slice. -/
def nestedSlice (v : JValue) (path : List String) : Option (List JValue) :=
  match nestedFieldNoCopy v path with
  | some (.arr items) => some items
  | _ => none

/-- `unstructured.NestedInt64`: the nested field, provided it is an `int64`. -/
def nestedInt64 (v : JValue) (path : List String) : Option Int :=
  match nestedFieldNoCopy v path with
  | some (.int i) => some i
  | _ => none

/-- Go `condValue == "SomeString"` on an `interface{}` value: true exactly
when the dynamic value is that string. -/
def jvalEqString (v : JValue) (s : String) : Bool :=
  match v with
  | .str t => t == s
  | _ => false

/-- Lowercase an ASCII letter, identity elsewhere (the ASCII fragment of
Go `strings.ToLower`; every kind name in the spec and tests is ASCII). -/
def toLowerChar (c : Char) : Char :=
  if 'A' ≤ c ∧ c ≤ 'Z' then Char.ofNat (c.toNat + 32) else c

/-- Go `strings.ToLower` (ASCII fragment). -/
def goToLower (s : String) : String :=
  ⟨s.data.map toLowerChar⟩

/-- Go `strings.HasSuffix`. -/
def hasSuffixGo (s suffix : String) : Bool :=
  suffix.data.isSuffixOf s.data

/-- Go `strings.TrimSuffix(s, suf)` specialised to a one-character suffix
already known to be present: drop the last character. -/
def dropLastStr (s : String) : String :=
  ⟨s.data.dropLast⟩

/-- Splitting on a one-character separator; models both the controller's
hand-rolled `split` helper and `strings.Split` for the separators `"."`
and `"/"` actually used. -/
def splitCharAux (sep : Char) : List Char → List Char → List String
  | [], acc => [⟨acc.reverse⟩]
  | c :: rest, acc =>
    if c = sep then ⟨acc.reverse⟩ :: splitCharAux sep rest []
    else splitCharAux sep rest (c :: acc)

/-- Go `split(s, sep)` for a one-character separator. -/
def splitGo (s : String) (sep : Char) : List String :=
  splitCharAux sep s.data []

/-- Gregorian leap-year test. -/
def isLeapYear (y : Nat) : Bool :=
  (y % 4 == 0 && y % 100 != 0) || y % 400 == 0

/-- Days in the months preceding month `m` of a common year. -/
def daysBeforeMonth (m : Nat) : Nat :=
  match m with
  | 1 => 0 | 2 => 31 | 3 => 59 | 4 => 90 | 5 => 120 | 6 => 151
  | 7 => 181 | 8 => 212 | 9 => 243 | 10 => 273 | 11 => 304 | 12 => 334
  | _ => 0

/-- Number of days of month `m` in year `y`. -/
def daysInMonth (y m : Nat) : Nat :=
  match m with
  | 1 => 31 | 3 => 31 | 5 => 31 | 7 => 31 | 8 => 31 | 10 => 31 | 12 => 31
  | 4 => 30 | 6 => 30 | 9 => 30 | 11 => 30
  | 2 => if isLeapYear y then 29 else 28
  | _ => 0

/-- Days from 0001-01-01 to the given proleptic-Gregorian date. -/
def daysFromCivil (y m d : Nat) : Nat :=
  let py := y - 1
  365 * py + py / 4 - py / 100 + py / 400 + daysBeforeMonth m
    + (if 2 < m ∧ isLeapYear y then 1 else 0) + (d - 1)

/-- Numeric value of a decimal digit character. -/
def digitVal (c : Char) : Nat := c.toNat - 48

/-- Model of `time.Parse(time.RFC3339, s)` for the `YYYY-MM-DDTHH:MM:SSZ`
layout: the instant in seconds since 0001-01-01T00:00:00Z on success
(`0` is exactly Go's zero time), `none` on any parse failure. -/
def parseRFC3339 (s : String) : Option Int :=
  match s.data with
  | [y1, y2, y3, y4, h1, m1, m2, h2, d1, d2, tc, hh1, hh2, c1, n1, n2, c2, s1, s2, zc] =>
    if (y1.isDigit && y2.isDigit && y3.isDigit && y4.isDigit &&
        m1.isDigit && m2.isDigit && d1.isDigit && d2.isDigit &&
        hh1.isDigit && hh2.isDigit && n1.isDigit && n2.isDigit &&
        s1.isDigit && s2.isDigit) = true ∧
       h1 = '-' ∧ h2 = '-' ∧ tc = 'T' ∧ c1 = ':' ∧ c2 = ':' ∧ zc = 'Z' then
      let y := 1000 * digitVal y1 + 100 * digitVal y2 + 10 * digitVal y3 + digitVal y4
      let mo := 10 * digitVal m1 + digitVal m2
      let da := 10 * digitVal d1 + digitVal d2
      let ho := 10 * digitVal hh1 + digitVal hh2
      let mi := 10 * digitVal n1 + digitVal n2
      let se := 10 * digitVal s1 + digitVal s2
      if 1 ≤ mo ∧ mo ≤ 12 ∧ 1 ≤ da ∧ da ≤ daysInMonth y mo ∧
         ho ≤ 23 ∧ mi ≤ 59 ∧ se ≤ 59 then
        some ((daysFromCivil y mo da * 86400 + ho * 3600 + mi * 60 + se : Nat) : Int)
      else none
    else none
  | _ => none

/-- Two's-complement wraparound to the `int64` range: the value in
`[-2^63, 2^63)` congruent to `x` modulo `2^64`. -/
def wrap64 (x : Int) : Int :=
  (x + 9223372036854775808) % 18446744073709551616 - 9223372036854775808

/-- Go `time.Duration(ttlSeconds) * time.Second`: a `time.Duration` is
`int64` nanoseconds, so the product `ttlSeconds * 1e9` wraps around in
two's complement whenever `|ttlSeconds| > 9223372036` (about 292
years).  Both engines build their expiration instant from this wrapped
duration.  (TTL values always arrive through `int64` fields, so
`ttlSeconds` itself is already an `int64` value.) -/
def ttlDurationNanos (ttlSeconds : Int) : Int :=
  wrap64 (ttlSeconds * 1000000000)

/-!
Embedding of `pkg/controller/ttlreaper_controller.go` (the
controller-runtime engine).
-/

namespace controller

/-- The finalizer string `TTLReaperFinalizer` of the controller. -/
def TTLReaperFinalizer : String := "ttlreaper.io/finalizer"

/-- `isResourceFinished` (controller-runtime engine): a `Succeeded`
condition with status `"True"`, else presence of `status.completionTime`.
This engine has no `status.phase` rule. -/
def condSucceededTrue (c : JValue) : Bool :=
  match c with
  | .obj fields =>
    (match lookupField fields "type" with
     | some v => jvalEqString v "Succeeded"
     | none => false) &&
    (match lookupField fields "status" with
     | some v => jvalEqString v "True"
     | none => false)
  | _ => false

/-- `isResourceFinished` of `ttlreaper_controller.go` (lines 177-195). -/
def isResourceFinished (r : JValue) : Bool :=
  match nestedSlice r ["status", "conditions"] with
  | some conditions =>
    if conditions.any condSucceededTrue then true
    else (nestedString r ["status", "completionTime"]).isSome
  | none => (nestedString r ["status", "completionTime"]).isSome

/-- One iteration of the condition loop inside
`getResourceCompletionTime`: the parsed `lastTransitionTime` of a
condition whose `type` equals `"Succeeded"`, when every check passes. -/
def condTransitionTime (c : JValue) : Option Int :=
  match c with
  | .obj fields =>
    match lookupField fields "type" with
    | some tv =>
      if jvalEqString tv "Succeeded" then
        match lookupField fields "lastTransitionTime" with
        | some (.str ts) => parseRFC3339 ts
        | _ => none
      else none
    | none => none
  | _ => none

/-- `getResourceCompletionTime` (lines 198-225): a parseable
`status.completionTime` wins; otherwise the first `Succeeded` condition
with a parseable `lastTransitionTime`; otherwise the zero time (`0`). -/
def getResourceCompletionTime (r : JValue) : Int :=
  match (nestedString r ["status", "completionTime"]).bind parseRFC3339 with
  | some t => t
  | none =>
    match nestedSlice r ["status", "conditions"] with
    | some conditions => (conditions.findSome? condTransitionTime).getD 0
    | none => 0

/-- `shouldDeleteResource` (lines 158-174): finished, with a non-zero
completion time, and
`now.After(completionTime.Add(time.Duration(ttlSeconds) * time.Second))`
(strict).  The duration product wraps in `int64` nanoseconds
(`ttlDurationNanos`); `time.Time` arithmetic itself does not wrap at
these magnitudes, so the comparison is exact over the integers once the
wrapped duration is added.  Instants are held at whole seconds, hence
the `* 1000000000` on both sides. -/
def shouldDeleteResource (r : JValue) (ttlSeconds now : Int) : Bool :=
  if !(isResourceFinished r) then false
  else
    if getResourceCompletionTime r == 0 then false
    else
      decide (getResourceCompletionTime r * 1000000000 + ttlDurationNanos ttlSeconds
        < now * 1000000000)

/-- The minimum of `int64`. -/
def int64Min : Int := -9223372036854775808

/-- The maximum of `int64`. -/
def int64Max : Int := 9223372036854775807

/-- Decimal digit accumulation of `strconv.ParseInt` (base 10). -/
def parseDigitsAcc : List Char → Nat → Option Nat
  | [], acc => some acc
  | c :: rest, acc =>
    if c.isDigit then parseDigitsAcc rest (10 * acc + digitVal c) else none

/-- `strconv.ParseInt(s, 10, 64)`: optional sign, one or more decimal
digits, value within the `int64` range. -/
def parseInt64 (s : String) : Except String Int :=
  match s.data with
  | [] => .error "invalid syntax"
  | c :: rest =>
    let signed : Bool × List Char :=
      if c = '-' then (true, rest)
      else if c = '+' then (false, rest)
      else (false, c :: rest)
    match signed.2 with
    | [] => .error "invalid syntax"
    | _ =>
      match parseDigitsAcc signed.2 0 with
      | none => .error "invalid syntax"
      | some n =>
        let v : Int := if signed.1 then -(n : Int) else (n : Int)
        if v < int64Min ∨ int64Max < v then .error "value out of range"
        else .ok v

/-- `convertToInt64` (lines 260-275).  The Go `int64`/`int32`/`int` cases
collapse to the single integer constructor of the dynamic-value model;
`float64` truncates toward zero; strings go through `strconv.ParseInt`;
everything else is an error. -/
def convertToInt64 : JValue → Except String Int
  | .int i => .ok i
  | .float num den => .ok (Int.tdiv num (Int.ofNat den))
  | .str s => parseInt64 s
  | _ => .error "cannot convert value to int64"

/-- `getNestedField` (lines 246-258): split the field path on `.` and walk. -/
def getNestedField (obj : JValue) (fieldPath : String) : Option JValue :=
  nestedFieldNoCopy obj (splitGo fieldPath '.')

/-- `getResourceFromKind` (lines 299-305): plain `kind + "s"`. -/
def getResourceFromKind (kind : String) : String :=
  if kind == "" then "" else kind ++ "s"

/-- Namespace defaulting of `processTTLCleanup` (lines 97-101): an empty
`spec.targetNamespace` falls back to the config object's own namespace,
and the single List call is issued against the resulting namespace. -/
def effectiveTargetNamespace (specTargetNamespace configNamespace : String) : String :=
  if specTargetNamespace == "" then configNamespace else specTargetNamespace

/-- Outcome of `DynamicClient...Delete` as classified by the loop of
`processTTLCleanup`: success, `errors.IsNotFound`, or any other error. -/
inductive DeleteOutcome where
  | ok
  | notFound
  | failed

/-- A listed target instance: its name, its namespace, and its payload. -/
structure TargetItem where
  name : String
  inNamespace : String
  obj : JValue

/-- One iteration of the resource loop of `processTTLCleanup`
(lines 124-149): `some name` when the iteration ends in
`deletedCount++` (the delete succeeded or was already gone), `none` when
the item is skipped (no TTL field, unconvertible TTL, not yet expired,
or a real delete error). -/
def itemDeleteStep (env : String → String → DeleteOutcome)
    (ttlFieldPath : String) (now : Int) (it : TargetItem) : Option String :=
  match getNestedField it.obj ttlFieldPath with
  | none => none
  | some ttlValue =>
    match convertToInt64 ttlValue with
    | .error _ => none
    | .ok ttlSeconds =>
      if shouldDeleteResource it.obj ttlSeconds now then
        match env it.inNamespace it.name with
        | .failed => none
        | _ => some it.name
      else none

/-- The names counted in `deletedCount` by a full pass of the resource
loop of `processTTLCleanup`, in order. -/
def deletedNames (env : String → String → DeleteOutcome)
    (ttlFieldPath : String) (now : Int) : List TargetItem → List String
  | [] => []
  | it :: rest =>
    match itemDeleteStep env ttlFieldPath now it with
    | some n => n :: deletedNames env ttlFieldPath now rest
    | none => deletedNames env ttlFieldPath now rest

/-- The policy object (`TTLReaperConfig`) as far as the reconciler touches
it: its own namespace, deletion timestamp, finalizer list and spec. -/
structure TTLReaperConfigObj where
  objNamespace : String
  deletionTimestamp : Option Int
  finalizers : List String
  targetNamespace : String
  targetKind : String
  targetAPIVersion : String
  ttlFieldPath : String
  checkInterval : Option Int
deriving DecidableEq

/-- `controllerutil.ContainsFinalizer`. -/
def containsFinalizer (c : TTLReaperConfigObj) (f : String) : Bool :=
  c.finalizers.contains f

/-- `controllerutil.AddFinalizer`: append. -/
def addFinalizer (c : TTLReaperConfigObj) (f : String) : TTLReaperConfigObj :=
  { c with finalizers := c.finalizers ++ [f] }

/-- `controllerutil.RemoveFinalizer`: remove every occurrence, keeping order. -/
def removeFinalizer (c : TTLReaperConfigObj) (f : String) : TTLReaperConfigObj :=
  { c with finalizers := c.finalizers.filter (fun x => x ≠ f) }

/-- The write to the policy object performed by one `Reconcile` call
(lines 72-91 and `handleDeletion`, lines 228-234): `some updated` when
`r.Update(ctx, config)` is issued with `updated`, `none` when the
reconcile never writes the policy object.  `processTTLCleanup` and
`scheduleNextReconcile` never write the config, so the non-finalizer
paths all yield `none`. -/
def reconcilePolicyWrite (c : TTLReaperConfigObj) : Option TTLReaperConfigObj :=
  if c.deletionTimestamp.isSome then
    if containsFinalizer c TTLReaperFinalizer then
      some (removeFinalizer c TTLReaperFinalizer)
    else none
  else
    if !(containsFinalizer c TTLReaperFinalizer) then
      some (addFinalizer c TTLReaperFinalizer)
    else none

end controller

/-!
Embedding of the knative reconciler (`pkg/reconciler/ttlreaper`, source
parts `part_003` and `part_004`).
-/

namespace ttlreaper

/-- One condition check of pattern 2 of `isResourceFinished`
(part_003, lines 282-296): `type` and `status` both present as strings,
`type ∈ {Succeeded, Completed}` and `status == "True"`. -/
def condMatches (c : JValue) : Bool :=
  match c with
  | .obj fields =>
    match lookupField fields "type", lookupField fields "status" with
    | some (.str t), some (.str s) =>
      (t == "Succeeded" || t == "Completed") && s == "True"
    | _, _ => false
  | _ => false

/-- The condition loop of pattern 2, over the whole slice. -/
def conditionsAnyMatch (r : JValue) : Bool :=
  match nestedSlice r ["status", "conditions"] with
  | some conditions => conditions.any condMatches
  | none => false

/-- `isResourceFinished` (part_003, lines 274-305).  Note the control
flow of pattern 1: when `status.phase` is present as a string, the
function RETURNS `phase ∈ {Succeeded, Failed, Completed}` — patterns 2
and 3 are consulted only when `status.phase` is absent. -/
def isResourceFinished (r : JValue) : Bool :=
  match nestedString r ["status", "phase"] with
  | some phase => phase == "Succeeded" || phase == "Failed" || phase == "Completed"
  | none =>
    match nestedSlice r ["status", "conditions"] with
    | some conditions =>
      if conditions.any condMatches then true
      else (nestedString r ["status", "completionTime"]).isSome
    | none => (nestedString r ["status", "completionTime"]).isSome

/-- `resource.GetCreationTimestamp().Time`: the parsed
`metadata.creationTimestamp`, the zero time when absent or unparseable. -/
def creationInstant (r : JValue) : Int :=
  match (nestedString r ["metadata", "creationTimestamp"]).bind parseRFC3339 with
  | some t => t
  | none => 0

/-- The `finishTime` computation of `scheduleResourceDeletion`
(part_003, lines 196-208): a parseable `status.completionTime` when it
yields a non-zero instant, otherwise the creation timestamp.  The
condition `lastTransitionTime` is never consulted on this path. -/
def schedFinishTime (r : JValue) : Int :=
  let ft : Int :=
    match (nestedString r ["status", "completionTime"]).bind parseRFC3339 with
    | some t => t
    | none => 0
  if ft == 0 then creationInstant r else ft

/-- `scheduleResourceDeletion` (part_003, lines 193-266), as a transition
on the timer registry `r.timers` (modelled as a key-to-expiration
association list; the stored expiration is in nanoseconds, exactly the
instant `finishTime.Add(ttlDuration)` the program computes, with the
`time.Duration(ttlSeconds) * time.Second` product wrapped in `int64`
nanoseconds).  The existing timer for the key is stopped and removed;
when `delay := time.Until(expirationTime)` is non-positive the resource
is deleted immediately (second component `true`) and no timer is
installed; otherwise a timer for the exact expiration instant is
installed. -/
def scheduleResourceDeletion (timers : List (String × Int)) (key : String)
    (r : JValue) (ttlSeconds now : Int) : List (String × Int) × Bool :=
  let finishTime := schedFinishTime r
  let expirationNanos := finishTime * 1000000000 + ttlDurationNanos ttlSeconds
  let delayNanos := expirationNanos - now * 1000000000
  let remaining := timers.filter (fun p => p.1 != key)
  if delayNanos ≤ 0 then (remaining, true)
  else (remaining ++ [(key, expirationNanos)], false)

/-- `getResourceName` (part_003, lines 307-319): lowercase, then
trailing `y` → `ies`, trailing `s`/`x`/`z` → append `es`, otherwise
append `s`. -/
def getResourceName (kind : String) : String :=
  let lower := goToLower kind
  if hasSuffixGo lower "y" then dropLastStr lower ++ "ies"
  else if hasSuffixGo lower "s" || hasSuffixGo lower "x" || hasSuffixGo lower "z" then
    lower ++ "es"
  else lower ++ "s"

/-- The pluralization rule as worded by the spec (§4.1): derive the
plural resource name from the lowercased kind with the deterministic
rule "trailing `y` → replace with `ies`; trailing `s`/`x`/`z` → append
`es`; otherwise append `s`".  Stated separately from `getResourceName`
so the code can be compared against the spec's words. -/
def pluralRuleFromSpec (kind : String) : String :=
  let lower := goToLower kind
  if hasSuffixGo lower "y" then dropLastStr lower ++ "ies"
  else if hasSuffixGo lower "s" || hasSuffixGo lower "x" || hasSuffixGo lower "z" then
    lower ++ "es"
  else lower ++ "s"

/-- `schema.ParseGroupVersion`: split `group/version` on the first `/`;
no `/` means an empty group; more than one `/` is an error. -/
def parseGroupVersion (gv : String) : Except String (String × String) :=
  if gv == "" || gv == "/" then .ok ("", "")
  else
    match splitGo gv '/' with
    | [v] => .ok ("", v)
    | [g, v] => .ok (g, v)
    | _ => .error "unexpected GroupVersion string"

/-- A resolved resource locator. -/
structure GroupVersionResource where
  group : String
  version : String
  resource : String
deriving DecidableEq

/-- Locator resolution of `reconcileTTLReaper` (part_003, lines 90-102):
parse the API version, then pluralize the kind with `getResourceName`. -/
def resolveGVR (kind apiVersion : String) : Except String GroupVersionResource :=
  match parseGroupVersion apiVersion with
  | .ok gv => .ok ⟨gv.1, gv.2, getResourceName kind⟩
  | .error e => .error e

/-- `parseTargetGVR` of the dynamic watch registry (part_004, lines
177-195): the API version must split into exactly two parts, and the
resource is `strings.ToLower(kind) + "s"` (no `y`/`s`/`x`/`z` rule). -/
def parseTargetGVR (targetKind targetAPIVersion : String) :
    Except String GroupVersionResource :=
  match splitGo targetAPIVersion '/' with
  | [g, v] => .ok ⟨g, v, goToLower targetKind ++ "s"⟩
  | _ => .error "invalid targetAPIVersion format"

/-- Namespace determination of `reconcileTTLReaper` (part_003, lines
106-119): a non-empty `spec.targetNamespace` is processed alone; an
empty one enumerates every namespace of the cluster. -/
def namespacesToProcess (targetNamespace : String)
    (clusterNamespaces : List String) : List String :=
  if targetNamespace ≠ "" then [targetNamespace] else clusterNamespaces

/-- `fmt.Sprintf("%s/%s/%s", namespace, item.GetKind(), resourceName)`. -/
def resourceKey (ns : String) (obj : JValue) : String :=
  ns ++ "/" ++ ((nestedString obj ["kind"]).getD "") ++ "/" ++
    ((nestedString obj ["metadata", "name"]).getD "")

/-- The scheduling decision for one listed item (the loop body of
`processNamespace`, part_003, lines 170-188): the item contributes a
deletion attempt (key and expiration instant) exactly when
`spec.ttlSecondsAfterFinished` is a plain `int64` and the resource is
classified finished. -/
def schedOf (ns : String) (obj : JValue) : Option (String × Int) :=
  match nestedInt64 obj ["spec", "ttlSecondsAfterFinished"] with
  | some ttlSeconds =>
    if isResourceFinished obj then
      some (resourceKey ns obj, schedFinishTime obj + ttlSeconds)
    else none
  | none => none

/-- The deletion attempts (immediate or timer-based, by delay) produced
by the item loop of `processNamespace` for one namespace's listing. -/
def namespaceScheds (ns : String) (items : List JValue) : List (String × Int) :=
  items.filterMap (schedOf ns)

/-- Result of listing one namespace, as classified by `processNamespace`
(part_003, lines 159-167): items, `errors.IsNotFound` (treated as an
empty result), or any other error (surfaced to the caller). -/
inductive ListResult where
  | ok (items : List JValue)
  | notFound
  | err

/-- `processNamespace` (part_003, lines 145-191): a NotFound listing is
an empty success; any other listing failure is an error; otherwise the
item loop runs. -/
def processNamespace (env : String → ListResult) (ns : String) :
    Except Unit (List (String × Int)) :=
  match env ns with
  | .notFound => .ok []
  | .err => .error ()
  | .ok items => .ok (namespaceScheds ns items)

/-- The namespace loop of `reconcileTTLReaper` (part_003, lines
121-132): a namespace whose processing fails is logged and skipped, and
the loop continues with the remaining namespaces. -/
def reconcilePass (env : String → ListResult) : List String → List (String × Int)
  | [] => []
  | ns :: rest =>
    (match processNamespace env ns with
     | .ok acts => acts
     | .error _ => []) ++ reconcilePass env rest

end ttlreaper

/-!
Concrete fixtures used by the counterexamples and witnesses below.
-/

/-- The instant 2023-12-31T00:00:00Z (used as a creation timestamp). -/
def tsA : String := "2023-12-31T00:00:00Z"

/-- The instant 2024-01-01T00:00:00Z (used as a completion timestamp). -/
def tsB : String := "2024-01-01T00:00:00Z"

/-- The instant 2024-01-02T00:00:00Z (used as a transition timestamp). -/
def tsC : String := "2024-01-02T00:00:00Z"

/-- A resource finished via `status.completionTime` only. -/
def rC1 : JValue := .obj [("status", .obj [("completionTime", .str tsB)])]

/-- A resource with `status.phase = "Running"` (not a finished phase) but
with `status.completionTime` present. -/
def rC2 : JValue :=
  .obj [("status", .obj [("phase", .str "Running"), ("completionTime", .str tsB)])]

/-- A resource with `status.phase = "Succeeded"` and nothing else. -/
def rPhaseSucc : JValue := .obj [("status", .obj [("phase", .str "Succeeded")])]

/-- A resource with no `status.completionTime`, a `Succeeded`/`True`
condition carrying `lastTransitionTime`, and a creation timestamp. -/
def rC3 : JValue :=
  .obj [("metadata", .obj [("creationTimestamp", .str tsA)]),
        ("status", .obj [("conditions", .arr
          [.obj [("type", .str "Succeeded"), ("status", .str "True"),
                 ("lastTransitionTime", .str tsC)]])])]

/-- A finished resource (a `Succeeded`/`True` condition) carrying no
timestamp anywhere. -/
def rC3b : JValue :=
  .obj [("status", .obj [("conditions", .arr
    [.obj [("type", .str "Succeeded"), ("status", .str "True")]])])]

/-- A finished Job-like resource with an integer TTL of 120 seconds. -/
def objInt120 : JValue :=
  .obj [("kind", .str "Job"),
        ("metadata", .obj [("name", .str "job-1")]),
        ("spec", .obj [("ttlSecondsAfterFinished", .int 120)]),
        ("status", .obj [("completionTime", .str tsB)])]

/-- The same resource with the TTL held as the string `"120"`. -/
def objStr120 : JValue :=
  .obj [("kind", .str "Job"),
        ("metadata", .obj [("name", .str "job-1")]),
        ("spec", .obj [("ttlSecondsAfterFinished", .str "120")]),
        ("status", .obj [("completionTime", .str tsB)])]

/-- A resource whose TTL field holds a boolean (not coercible). -/
def objBadTTL : JValue :=
  .obj [("spec", .obj [("ttlSecondsAfterFinished", .bool true)])]

/-- The listed item for `objInt120`. -/
def itJob : controller.TargetItem := ⟨"job-1", "default", objInt120⟩

/-- The listed item for `objBadTTL`. -/
def itBad : controller.TargetItem := ⟨"bad-1", "default", objBadTTL⟩

/-- A delete environment in which every delete reports NotFound. -/
def envNF : String → String → controller.DeleteOutcome :=
  fun _ _ => controller.DeleteOutcome.notFound

/-- A listing environment that fails for namespace `nsA` and lists one
expired Job everywhere else. -/
def envAB : String → ttlreaper.ListResult :=
  fun ns => if ns = "nsA" then .err else .ok [objInt120]

/-- A listing environment that lists one Job everywhere. -/
def envOk : String → ttlreaper.ListResult :=
  fun _ => .ok [objInt120]

/-- A policy object that does not yet carry the reaper finalizer. -/
def cfgNoFin : controller.TTLReaperConfigObj :=
  ⟨"ttl-reaper-system", none, [], "", "PipelineRun", "tekton.dev/v1beta1", "", none⟩

/-- `cfgNoFin` after the reconciler adds its finalizer. -/
def cfgWithFin : controller.TTLReaperConfigObj :=
  { cfgNoFin with finalizers := [controller.TTLReaperFinalizer] }

/-!
Helper lemmas, shared by several claim theorems.
-/

/-- `deletedCount` accounting distributes over list concatenation: the
resource loop of `processTTLCleanup` treats every item independently. -/
theorem deletedNames_append (env : String → String → controller.DeleteOutcome)
    (path : String) (now : Int) (xs ys : List controller.TargetItem) :
    controller.deletedNames env path now (xs ++ ys) =
      controller.deletedNames env path now xs ++ controller.deletedNames env path now ys := by
  induction xs with
  | nil => simp [controller.deletedNames]
  | cons it rest ih =>
    simp only [List.cons_append, controller.deletedNames]
    cases h : controller.itemDeleteStep env path now it <;> simp [h, ih]

/-- Filtering a key out twice is the same as once. -/
theorem filter_ne_idem (k : String) (l : List (String × Int)) :
    (l.filter (fun p => p.1 != k)).filter (fun p => p.1 != k) =
      l.filter (fun p => p.1 != k) := by
  induction l with
  | nil => rfl
  | cons a t ih => cases h : (a.1 != k) <;> simp [List.filter_cons, h, ih]

/-- Whatever `scheduleResourceDeletion` does, the entries for other keys
it leaves are exactly those of the input registry. -/
theorem sched_filter_ne (timers : List (String × Int)) (k : String)
    (r : JValue) (ttl now : Int) :
    ((ttlreaper.scheduleResourceDeletion timers k r ttl now).1).filter
        (fun p => p.1 != k) = timers.filter (fun p => p.1 != k) := by
  simp only [ttlreaper.scheduleResourceDeletion]
  split
  · exact filter_ne_idem k timers
  · simp [List.filter_append, filter_ne_idem]

/-- After removing a key, no entry with that key survives. -/
theorem filter_eq_of_filter_ne (k : String) (l : List (String × Int)) :
    (l.filter (fun p => p.1 != k)).filter (fun p => p.1 == k) = [] := by
  induction l with
  | nil => rfl
  | cons a t ih =>
    cases h : (a.1 == k) <;> simp [List.filter_cons, bne, h, ih]

/-- Removing one key does not change the entries of a different key. -/
theorem filter_eq_other (k k2 : String) (h : k2 ≠ k) (l : List (String × Int)) :
    (l.filter (fun p => p.1 != k)).filter (fun p => p.1 == k2) =
      l.filter (fun p => p.1 == k2) := by
  induction l with
  | nil => rfl
  | cons a t ih =>
    simp only [List.filter_cons]
    by_cases ha : a.1 = k
    · have h1 : (a.1 != k) = false := by simp [bne, ha]
      have h2 : (a.1 == k2) = false := by
        have hne : a.1 ≠ k2 := by rw [ha]; exact fun hh => h hh.symm
        simp [hne]
      rw [h1, h2]
      simp [ih]
    · have h1 : (a.1 != k) = true := by simp [bne, ha]
      cases h2 : (a.1 == k2) <;> simp [List.filter_cons, h1, h2, ih]

/-- The removed key does not occur among the remaining keys. -/
theorem notmem_keys_filter_ne (k : String) (l : List (String × Int)) :
    k ∉ (l.filter (fun p => p.1 != k)).map Prod.fst := by
  induction l with
  | nil => simp
  | cons a t ih =>
    by_cases ha : a.1 = k
    · simp [List.filter_cons, bne, ha, ih]
    · simp [List.filter_cons, bne, ha, ih]
      exact fun hk => ha hk.symm

/-- Filtering preserves distinctness of the registry's keys. -/
theorem nodup_keys_filter (p : String × Int → Bool) (l : List (String × Int))
    (h : (l.map Prod.fst).Nodup) : ((l.filter p).map Prod.fst).Nodup :=
  List.Nodup.sublist (List.Sublist.map Prod.fst (List.filter_sublist l)) h

/-!
Claim C1.
-/

/-- C1, counterexample.  The claim says a resource with `ttlSeconds < 0`
is never eligible and that the negative value is rejected before
scheduling.  The code has no such check: with `ttlSeconds = -100` the
finished resource `rC1` is eligible at `now =` its own completion
instant (first conjunct), and the knative scheduling path deletes it
immediately (third conjunct).  The second conjunct also refutes the
claimed boundary `now ≥ completionInstant + ttlSeconds`: at exact
equality (`ttl = 0`, `now =` completion instant) the code is NOT
eligible, because `now.After` is strict.  The last two conjuncts refute
the claimed eligibility formula at large TTLs: `ttl = 10^10` (about 317
years) wraps to a NEGATIVE `int64`-nanosecond duration, so the resource
is eligible immediately although `now < completionInstant + ttl`. -/
theorem c1_counterexample :
    controller.shouldDeleteResource rC1 (-100) (controller.getResourceCompletionTime rC1) = true ∧
    controller.shouldDeleteResource rC1 0 (controller.getResourceCompletionTime rC1) = false ∧
    (ttlreaper.scheduleResourceDeletion [] "default/Job/x" rC1 (-100)
      (ttlreaper.schedFinishTime rC1)).2 = true ∧
    controller.shouldDeleteResource rC1 10000000000
      (controller.getResourceCompletionTime rC1) = true ∧
    ttlDurationNanos 10000000000 < 0 :=
  ⟨rfl, rfl, rfl, rfl, by decide⟩

/-- C1, amended: a resource is eligible for deletion iff it is
classified finished, its resolved completion instant is non-zero, and
`now` is strictly after
`completionInstant.Add(time.Duration(ttlSeconds) * time.Second)`, where
the duration product wraps in `int64` nanoseconds (first conjunct).
For every `ttlSeconds` with `|ttlSeconds| ≤ 9223372036` (about ±292
years — every realistic value), the wrapped duration is exactly
`ttlSeconds` seconds (second conjunct), so eligibility there is
`completionInstant + ttlSeconds < now`; beyond that bound the duration
wraps and the branch flips.  Negative `ttlSeconds` values are not
rejected anywhere: within the non-wrapping range they follow the same
formula and make the resource eligible even earlier. -/
theorem c1_amended :
    (∀ (r : JValue) (ttlSeconds now : Int),
      controller.shouldDeleteResource r ttlSeconds now = true ↔
        (controller.isResourceFinished r = true ∧
         controller.getResourceCompletionTime r ≠ 0 ∧
         controller.getResourceCompletionTime r * 1000000000 +
           ttlDurationNanos ttlSeconds < now * 1000000000)) ∧
    (∀ ttlSeconds : Int, -9223372036 ≤ ttlSeconds → ttlSeconds ≤ 9223372036 →
      ttlDurationNanos ttlSeconds = ttlSeconds * 1000000000) := by
  constructor
  · intro r ttlSeconds now
    unfold controller.shouldDeleteResource
    cases hf : controller.isResourceFinished r
    · simp [hf]
    · by_cases hc : controller.getResourceCompletionTime r = 0
      · simp [hf, hc]
      · simp [hf, hc]
  · intro ttlSeconds h1 h2
    unfold ttlDurationNanos wrap64
    omega

/-- C1, witness: the amended formula applied at `rC1` with the negative
TTL `-100` at `now =` the completion instant (eligible, since the
expiration lies 100 s in the past), and the no-wrap bound applied at
`-100` (whose duration is exactly `-100` seconds in nanoseconds). -/
theorem c1_witness :
    controller.shouldDeleteResource rC1 (-100)
      (controller.getResourceCompletionTime rC1) = true ∧
    ttlDurationNanos (-100) = (-100) * 1000000000 :=
  ⟨(c1_amended.1 rC1 (-100) (controller.getResourceCompletionTime rC1)).mpr
      ⟨rfl, by decide, by decide⟩,
   c1_amended.2 (-100) (by decide) (by decide)⟩

/-!
Claim C2.
-/

/-- C2, counterexample.  The claim says a present `status.phase` outside
the finished set does not by itself make the resource unfinished when a
later rule matches.  `rC2` has `status.phase = "Running"` AND a present
`status.completionTime` (rule 3 matches), yet the classifier returns
unfinished: pattern 1 returns early whenever a phase string is present. -/
theorem c2_counterexample :
    ttlreaper.isResourceFinished rC2 = false ∧
    nestedString rC2 ["status", "completionTime"] = some tsB :=
  ⟨rfl, rfl⟩

/-- C2, amended: the classifier is phase-dominant, not
first-match-wins.  When `status.phase` is present as a string, the
classification is decided entirely by whether the phase is `Succeeded`,
`Failed` or `Completed`; conditions and `completionTime` are consulted
only when `status.phase` is absent, and then a
`Succeeded`/`Completed`-`"True"` condition or a present
`status.completionTime` makes the resource finished. -/
theorem c2_amended (r : JValue) :
    (∀ p, nestedString r ["status", "phase"] = some p →
      (ttlreaper.isResourceFinished r = true ↔
        (p = "Succeeded" ∨ p = "Failed" ∨ p = "Completed"))) ∧
    (nestedString r ["status", "phase"] = none →
      (ttlreaper.isResourceFinished r = true ↔
        (ttlreaper.conditionsAnyMatch r = true ∨
         (nestedString r ["status", "completionTime"]).isSome = true))) := by
  constructor
  · intro p hp
    unfold ttlreaper.isResourceFinished
    rw [hp]
    simp [or_assoc]
  · intro hp
    unfold ttlreaper.isResourceFinished ttlreaper.conditionsAnyMatch
    rw [hp]
    cases h : nestedSlice r ["status", "conditions"] with
    | none => simp
    | some conditions =>
      by_cases hany : conditions.any ttlreaper.condMatches = true
      · simp [hany]
      · simp [hany]

/-- C2, witness: a resource whose only signal is
`status.phase = "Succeeded"` is classified finished. -/
theorem c2_witness : ttlreaper.isResourceFinished rPhaseSucc = true :=
  ((c2_amended rPhaseSucc).1 "Succeeded" rfl).mpr (Or.inl rfl)

/-!
Claim C3.
-/

/-- C3, counterexample.  The claim says the condition's
`lastTransitionTime` takes precedence over the creation-timestamp
fallback.  `rC3` has no `status.completionTime`, a `Succeeded`/`True`
condition with `lastTransitionTime` `tsC`, and creation timestamp `tsA`;
yet the scheduling path uses the creation timestamp, not the condition's
transition time (first two conjuncts) — only the sibling
controller-runtime resolver uses the transition time (third conjunct).
Conversely that resolver has no creation fallback: the finished resource
`rC3b` (a `Succeeded`/`True` condition, no timestamp anywhere) resolves
to the zero instant there (last two conjuncts), refuting "a finished
resource always obtains a completion instant". -/
theorem c3_counterexample :
    ttlreaper.schedFinishTime rC3 = ttlreaper.creationInstant rC3 ∧
    ttlreaper.creationInstant rC3 ≠ (parseRFC3339 tsC).getD 0 ∧
    controller.getResourceCompletionTime rC3 = (parseRFC3339 tsC).getD 0 ∧
    controller.isResourceFinished rC3b = true ∧
    controller.getResourceCompletionTime rC3b = 0 :=
  ⟨rfl, by decide, rfl, rfl, rfl⟩

/-- C3, amended: completion-instant resolution is two-tier in each
engine rather than the claimed three-tier chain.  The knative scheduling
path prefers a parseable non-zero `status.completionTime` and otherwise
uses the creation timestamp (so there it always obtains an instant); the
controller-runtime resolver prefers a parseable `status.completionTime`,
otherwise the first `Succeeded` condition's parseable
`lastTransitionTime`, otherwise the zero instant — it never falls back
to the creation timestamp. -/
theorem c3_amended :
    (∀ (r : JValue) (t : Int),
      (nestedString r ["status", "completionTime"]).bind parseRFC3339 = some t →
      t ≠ 0 → ttlreaper.schedFinishTime r = t) ∧
    (∀ r : JValue,
      (nestedString r ["status", "completionTime"]).bind parseRFC3339 = none →
      ttlreaper.schedFinishTime r = ttlreaper.creationInstant r) ∧
    (∀ (r : JValue) (t : Int),
      (nestedString r ["status", "completionTime"]).bind parseRFC3339 = some t →
      controller.getResourceCompletionTime r = t) ∧
    (∀ (r : JValue) (conditions : List JValue),
      (nestedString r ["status", "completionTime"]).bind parseRFC3339 = none →
      nestedSlice r ["status", "conditions"] = some conditions →
      controller.getResourceCompletionTime r =
        (conditions.findSome? controller.condTransitionTime).getD 0) := by
  refine ⟨?_, ?_, ?_, ?_⟩
  · intro r t hct ht
    unfold ttlreaper.schedFinishTime
    rw [hct]
    simp [ht]
  · intro r hct
    unfold ttlreaper.schedFinishTime
    rw [hct]
    simp
  · intro r t hct
    unfold controller.getResourceCompletionTime
    rw [hct]
  · intro r conditions hct hcond
    unfold controller.getResourceCompletionTime
    rw [hct, hcond]

/-- C3, witness: the scheduling path resolves `rC1`'s completion instant
to its parseable `status.completionTime` (the instant of `tsB`). -/
theorem c3_witness : ttlreaper.schedFinishTime rC1 = 63839664000 :=
  c3_amended.1 rC1 63839664000 rfl (by decide)

/-!
Claim C4.
-/

/-- C4, confirmed: scheduling the same resource key twice (the second
call's computed expiration still in the future) leaves exactly one live
timer for that key, carrying exactly the expiration instant the second
call computes (`finishTime` plus the wrapped `int64`-nanosecond TTL
duration, as the program computes it); entries of every other key are
untouched; and distinctness of registry keys is preserved. -/
theorem c4_unique_timer (timers : List (String × Int)) (k : String)
    (r1 r2 : JValue) (t1 n1 t2 n2 : Int)
    (h : n2 * 1000000000 <
      ttlreaper.schedFinishTime r2 * 1000000000 + ttlDurationNanos t2) :
    (((ttlreaper.scheduleResourceDeletion
        (ttlreaper.scheduleResourceDeletion timers k r1 t1 n1).1 k r2 t2 n2).1).filter
        (fun p => p.1 == k) =
      [(k, ttlreaper.schedFinishTime r2 * 1000000000 + ttlDurationNanos t2)]) ∧
    (∀ k2, k2 ≠ k →
      (((ttlreaper.scheduleResourceDeletion
        (ttlreaper.scheduleResourceDeletion timers k r1 t1 n1).1 k r2 t2 n2).1).filter
        (fun p => p.1 == k2) = timers.filter (fun p => p.1 == k2))) ∧
    ((timers.map Prod.fst).Nodup →
      (((ttlreaper.scheduleResourceDeletion
        (ttlreaper.scheduleResourceDeletion timers k r1 t1 n1).1 k r2 t2 n2).1).map
        Prod.fst).Nodup) := by
  have hd : ¬(ttlreaper.schedFinishTime r2 * 1000000000 + ttlDurationNanos t2 -
      n2 * 1000000000 ≤ 0) := by omega
  have hs2 : (ttlreaper.scheduleResourceDeletion
      (ttlreaper.scheduleResourceDeletion timers k r1 t1 n1).1 k r2 t2 n2).1 =
      timers.filter (fun p => p.1 != k) ++
        [(k, ttlreaper.schedFinishTime r2 * 1000000000 + ttlDurationNanos t2)] := by
    conv_lhs => rw [ttlreaper.scheduleResourceDeletion]
    rw [if_neg hd, sched_filter_ne]
  refine ⟨?_, ?_, ?_⟩
  · rw [hs2, List.filter_append, filter_eq_of_filter_ne]
    simp
  · intro k2 hk2
    rw [hs2, List.filter_append, filter_eq_other k k2 hk2]
    have : ((k : String) == k2) = false := by
      have : k ≠ k2 := fun hh => hk2 hh.symm
      simp [this]
    simp [this]
  · intro hnd
    rw [hs2, List.map_append]
    rw [List.nodup_append]
    refine ⟨nodup_keys_filter _ timers hnd, by simp, ?_⟩
    intro x hx hx2
    have hxk : x = k := by simpa using hx2
    rw [hxk] at hx
    exact notmem_keys_filter_ne k timers hx

/-- C4, witness: on the empty registry, schedule the key twice (TTLs 5
then 100 seconds, second call at `now = 50`); exactly the second call's
timer remains, carrying the second call's computed expiration. -/
theorem c4_witness :
    ((ttlreaper.scheduleResourceDeletion
        (ttlreaper.scheduleResourceDeletion [] "default/Job/x" rC1 5 0).1
        "default/Job/x" rC1 100 50).1).filter
        (fun p => p.1 == "default/Job/x") =
      [("default/Job/x",
        ttlreaper.schedFinishTime rC1 * 1000000000 + ttlDurationNanos 100)] :=
  (c4_unique_timer [] "default/Job/x" rC1 rC1 5 0 100 50 (by decide)).1

/-!
Claim C5.
-/

/-- C5, counterexample.  The claim says an empty `targetNamespace` never
restricts processing to a single default namespace.  The
controller-runtime engine does exactly that: its single List call goes
to `effectiveTargetNamespace`, which for an empty `targetNamespace` is
the config object's own (non-empty) namespace — no namespace
enumeration happens on that engine. -/
theorem c5_counterexample :
    controller.effectiveTargetNamespace "" "ttl-reaper-system" = "ttl-reaper-system" ∧
    "ttl-reaper-system" ≠ "" :=
  ⟨rfl, by decide⟩

/-- C5, amended: in the knative engine an empty `targetNamespace` makes
the pass enumerate every namespace of the cluster, and each
successfully listed namespace's deletion attempts appear in the pass's
output; the controller-runtime engine instead substitutes the config
object's own namespace and lists only there. -/
theorem c5_amended :
    (∀ clusterNamespaces : List String,
      ttlreaper.namespacesToProcess "" clusterNamespaces = clusterNamespaces) ∧
    (∀ (env : String → ttlreaper.ListResult) (clusterNamespaces : List String)
        (ns : String) (acts : List (String × Int)),
      ns ∈ clusterNamespaces →
      ttlreaper.processNamespace env ns = .ok acts →
      acts.Sublist (ttlreaper.reconcilePass env clusterNamespaces)) ∧
    (∀ configNamespace : String,
      controller.effectiveTargetNamespace "" configNamespace = configNamespace) := by
  refine ⟨?_, ?_, ?_⟩
  · intro clusterNamespaces
    simp [ttlreaper.namespacesToProcess]
  · intro env clusterNamespaces ns acts hmem hok
    induction clusterNamespaces with
    | nil => cases hmem
    | cons a rest ih =>
      rcases List.mem_cons.mp hmem with hhead | htail
      · rw [hhead] at hok
        simp only [ttlreaper.reconcilePass, hok]
        exact List.sublist_append_left acts _
      · exact (ih htail).trans (List.sublist_append_right _ _)
  · intro configNamespace
    rfl

/-- C5, witness: with one Job listed in each of `default` and `prod`,
the schedules of `prod` are contained in the full cluster-wide pass. -/
theorem c5_witness :
    (ttlreaper.namespaceScheds "prod" [objInt120]).Sublist
      (ttlreaper.reconcilePass envOk ["default", "prod"]) :=
  c5_amended.2.1 envOk ["default", "prod"] "prod"
    (ttlreaper.namespaceScheds "prod" [objInt120]) (by simp) rfl

/-!
Claim C6.
-/

/-- C6, counterexample.  The claim says the engine never updates policy
objects.  Reconciling the policy object `cfgNoFin` (which does not yet
carry the reaper finalizer) issues `r.Update` with the finalizer
appended: the policy object is written and changed. -/
theorem c6_counterexample :
    controller.reconcilePolicyWrite cfgNoFin = some cfgWithFin ∧
    cfgWithFin ≠ cfgNoFin :=
  ⟨rfl, by decide⟩

/-- C6, amended: the engine never creates or deletes policy objects and
never changes their spec; the only policy-object write a reconcile can
issue changes nothing but the finalizer list — appending the reaper
finalizer (first reconcile) or removing every copy of it (deletion
handling). -/
theorem c6_amended (c u : controller.TTLReaperConfigObj)
    (h : controller.reconcilePolicyWrite c = some u) :
    u.objNamespace = c.objNamespace ∧
    u.deletionTimestamp = c.deletionTimestamp ∧
    u.targetNamespace = c.targetNamespace ∧
    u.targetKind = c.targetKind ∧
    u.targetAPIVersion = c.targetAPIVersion ∧
    u.ttlFieldPath = c.ttlFieldPath ∧
    u.checkInterval = c.checkInterval ∧
    (u.finalizers = c.finalizers ++ [controller.TTLReaperFinalizer] ∨
     u.finalizers = c.finalizers.filter (fun x => x ≠ controller.TTLReaperFinalizer)) := by
  unfold controller.reconcilePolicyWrite at h
  split at h
  · split at h
    · cases h
      simp [controller.removeFinalizer]
    · cases h
  · split at h
    · cases h
      simp [controller.addFinalizer]
    · cases h

/-- C6, witness: reconciling `cfgNoFin` writes `cfgWithFin`, which
differs from it only by the appended finalizer. -/
theorem c6_witness :
    cfgWithFin.objNamespace = cfgNoFin.objNamespace ∧
    cfgWithFin.deletionTimestamp = cfgNoFin.deletionTimestamp ∧
    cfgWithFin.targetNamespace = cfgNoFin.targetNamespace ∧
    cfgWithFin.targetKind = cfgNoFin.targetKind ∧
    cfgWithFin.targetAPIVersion = cfgNoFin.targetAPIVersion ∧
    cfgWithFin.ttlFieldPath = cfgNoFin.ttlFieldPath ∧
    cfgWithFin.checkInterval = cfgNoFin.checkInterval ∧
    (cfgWithFin.finalizers = cfgNoFin.finalizers ++ [controller.TTLReaperFinalizer] ∨
     cfgWithFin.finalizers =
       cfgNoFin.finalizers.filter (fun x => x ≠ controller.TTLReaperFinalizer)) :=
  c6_amended cfgNoFin cfgWithFin rfl

/-!
Claim C7.
-/

/-- C7, counterexample.  The claim says every derived plural resource
name follows the lowercase `y`/`s`/`x`/`z` rule.  The controller-runtime
resolver appends a bare `"s"`, giving `"Policys"` for `"Policy"`
(neither lowercase nor the `y → ies` rule), and the dynamic watch
registry lowercases but also appends a bare `"s"`, giving `"policys"`. -/
theorem c7_counterexample :
    controller.getResourceFromKind "Policy" = "Policys" ∧
    ("Policys" : String) ≠ "policies" ∧
    ttlreaper.parseTargetGVR "Policy" "example.com/v1" =
      .ok ⟨"example.com", "v1", "policys"⟩ ∧
    ("policys" : String) ≠ "policies" :=
  ⟨rfl, by decide, rfl, by decide⟩

/-- C7, amended: the knative resolver `getResourceName` follows exactly
the spec's deterministic lowercase pluralization rule, and gives the §8
vectors (`pipelineruns`, `policies`); the controller-runtime resolver
and the watch registry's resolver instead append a bare `"s"`. -/
theorem c7_amended :
    (∀ kind, ttlreaper.getResourceName kind = ttlreaper.pluralRuleFromSpec kind) ∧
    ttlreaper.resolveGVR "PipelineRun" "tekton.dev/v1beta1" =
      .ok ⟨"tekton.dev", "v1beta1", "pipelineruns"⟩ ∧
    ttlreaper.resolveGVR "Policy" "example.com/v1" =
      .ok ⟨"example.com", "v1", "policies"⟩ ∧
    (∀ kind, kind ≠ "" → controller.getResourceFromKind kind = kind ++ "s") :=
  ⟨fun _ => rfl, rfl, rfl, fun kind hk => by
    unfold controller.getResourceFromKind
    simp [hk]⟩

/-!
Claim C8.
-/

/-- C8, counterexample.  Two refutations.  (1) In the knative engine a
numeric-string TTL is NOT honored like the integer: `objStr120` (TTL
field `"120"`) schedules nothing, while the identical `objInt120` (TTL
field `120`) is finished and schedules one deletion —
`unstructured.NestedInt64` rejects strings.  (2) In the
controller-runtime engine a value that is neither an integer nor a
numeric string is not always rejected: the float `5/2` is accepted and
truncated to `2`. -/
theorem c8_counterexample :
    ttlreaper.namespaceScheds "default" [objStr120] = [] ∧
    ttlreaper.namespaceScheds "default" [objInt120] =
      [("default/Job/job-1", ttlreaper.schedFinishTime objInt120 + 120)] ∧
    ttlreaper.isResourceFinished objStr120 = true ∧
    controller.convertToInt64 (.str "120") = .ok 120 ∧
    controller.convertToInt64 (.float 5 2) = .ok 2 :=
  ⟨rfl, rfl, rfl, rfl, rfl⟩

/-- C8, amended: in the controller-runtime engine an integer TTL and a
numeric-string TTL denoting the same value are coerced identically
(floats are also accepted, truncated toward zero); booleans, null,
arrays and objects are rejected, and a rejected TTL only skips its own
instance — the remaining instances of the pass are still processed.  In
the knative engine the TTL must be a plain integer; any other value
(including a numeric string) skips the instance, again without
aborting the batch. -/
theorem c8_amended :
    (∀ (s : String) (i : Int), controller.parseInt64 s = .ok i →
      controller.convertToInt64 (.str s) = .ok i ∧
      controller.convertToInt64 (.int i) = .ok i) ∧
    (∀ b, controller.convertToInt64 (.bool b) = .error "cannot convert value to int64") ∧
    (controller.convertToInt64 .null = .error "cannot convert value to int64") ∧
    (∀ items, controller.convertToInt64 (.arr items) = .error "cannot convert value to int64") ∧
    (∀ fields, controller.convertToInt64 (.obj fields) = .error "cannot convert value to int64") ∧
    (∀ (env : String → String → controller.DeleteOutcome) (path : String) (now : Int)
        (xs ys : List controller.TargetItem) (it : controller.TargetItem)
        (v : JValue) (e : String),
      controller.getNestedField it.obj path = some v →
      controller.convertToInt64 v = .error e →
      controller.deletedNames env path now (xs ++ it :: ys) =
        controller.deletedNames env path now xs ++ controller.deletedNames env path now ys) ∧
    (∀ (ns : String) (xs ys : List JValue) (obj : JValue),
      nestedInt64 obj ["spec", "ttlSecondsAfterFinished"] = none →
      ttlreaper.namespaceScheds ns (xs ++ obj :: ys) =
        ttlreaper.namespaceScheds ns xs ++ ttlreaper.namespaceScheds ns ys) := by
  refine ⟨?_, fun _ => rfl, rfl, fun _ => rfl, fun _ => rfl, ?_, ?_⟩
  · intro s i hs
    exact ⟨by simpa [controller.convertToInt64] using hs, rfl⟩
  · intro env path now xs ys it v e hv he
    rw [deletedNames_append]
    have hstep : controller.itemDeleteStep env path now it = none := by
      simp only [controller.itemDeleteStep, hv, he]
    simp [controller.deletedNames, hstep]
  · intro ns xs ys obj httl
    have hsched : ttlreaper.schedOf ns obj = none := by
      unfold ttlreaper.schedOf
      rw [httl]
    unfold ttlreaper.namespaceScheds
    rw [List.filterMap_append]
    simp [hsched]

/-- C8, witness: the string `"120"` is coerced exactly like the integer
`120`, and a boolean-valued TTL skips only its own instance (an empty
surrounding batch stays empty). -/
theorem c8_witness :
    (controller.convertToInt64 (.str "120") = .ok 120 ∧
     controller.convertToInt64 (.int 120) = .ok 120) ∧
    controller.deletedNames envNF "spec.ttlSecondsAfterFinished" 0 ([] ++ itBad :: []) =
      controller.deletedNames envNF "spec.ttlSecondsAfterFinished" 0 [] ++
        controller.deletedNames envNF "spec.ttlSecondsAfterFinished" 0 [] :=
  ⟨c8_amended.1 "120" 120 rfl,
   c8_amended.2.2.2.2.2.1 envNF "spec.ttlSecondsAfterFinished" 0 [] [] itBad
     (JValue.bool true) "cannot convert value to int64" rfl rfl⟩

/-!
Claim C9.
-/

/-- C9, confirmed: when the delete of an expired item reports NotFound,
the loop of `processTTLCleanup` surfaces no error, counts the item in
`deletedCount` exactly as a successful delete (its name appears in the
deleted list), and keeps processing the remaining items. -/
theorem c9_notfound_success (env : String → String → controller.DeleteOutcome)
    (path : String) (now : Int) (xs ys : List controller.TargetItem)
    (it : controller.TargetItem) (v : JValue) (ttl : Int)
    (h1 : controller.getNestedField it.obj path = some v)
    (h2 : controller.convertToInt64 v = .ok ttl)
    (h3 : controller.shouldDeleteResource it.obj ttl now = true)
    (h4 : env it.inNamespace it.name = controller.DeleteOutcome.notFound) :
    controller.deletedNames env path now (xs ++ it :: ys) =
      controller.deletedNames env path now xs ++
        it.name :: controller.deletedNames env path now ys := by
  rw [deletedNames_append]
  have hstep : controller.itemDeleteStep env path now it = some it.name := by
    simp only [controller.itemDeleteStep, h1, h2, h3, h4, if_true]
  simp [controller.deletedNames, hstep]

/-- C9, witness: a single expired Job whose delete reports NotFound is
still counted as deleted, with an empty batch around it. -/
theorem c9_witness :
    controller.deletedNames envNF "spec.ttlSecondsAfterFinished"
        (controller.getResourceCompletionTime objInt120 + 121) ([] ++ itJob :: []) =
      controller.deletedNames envNF "spec.ttlSecondsAfterFinished"
        (controller.getResourceCompletionTime objInt120 + 121) [] ++
        itJob.name :: controller.deletedNames envNF "spec.ttlSecondsAfterFinished"
          (controller.getResourceCompletionTime objInt120 + 121) [] :=
  c9_notfound_success envNF "spec.ttlSecondsAfterFinished"
    (controller.getResourceCompletionTime objInt120 + 121) [] [] itJob
    (JValue.int 120) 120 rfl rfl (by decide) rfl

/-!
Claim C10.
-/

/-- C10, confirmed: within one cluster-wide pass, a namespace whose
listing fails contributes nothing and is skipped, while every other
namespace's listing, scheduling and deletion attempts are exactly what
they would have been without it. -/
theorem c10_namespace_isolation (env : String → ttlreaper.ListResult)
    (a : String) (h : env a = ttlreaper.ListResult.err)
    (ns1 ns2 : List String) :
    ttlreaper.reconcilePass env (ns1 ++ a :: ns2) =
      ttlreaper.reconcilePass env ns1 ++ ttlreaper.reconcilePass env ns2 := by
  induction ns1 with
  | nil => simp [ttlreaper.reconcilePass, ttlreaper.processNamespace, h]
  | cons b rest ih =>
    simp only [List.cons_append, ttlreaper.reconcilePass, List.append_eq, ih,
      List.append_assoc]

/-- C10, witness: with namespace `nsA` failing to list and `nsB`, `nsC`
each listing one expired Job, the pass output is exactly the
contributions of `nsB` and `nsC`. -/
theorem c10_witness :
    ttlreaper.reconcilePass envAB (["nsB"] ++ "nsA" :: ["nsC"]) =
      ttlreaper.reconcilePass envAB ["nsB"] ++ ttlreaper.reconcilePass envAB ["nsC"] :=
  c10_namespace_isolation envAB "nsA" rfl ["nsB"] ["nsC"]
